import Mathlib

set_option maxHeartbeats 1000000

/-!
Shallow embedding of the MCP registry static-site generator.

The repository holds three near-duplicate scripts:
  * `Gen.*`      models `src/generate-registry-endpoints.js`
  * `Wrapped.*`  models `src/unnamed/part_000` (envelope + HTML variant)
  * `JsonOnly.*` models `src/unnamed/part_001` (JSON-only variant)
Pure data transformations are embedded directly; filesystem writes are
modelled as a list of (path, content) pairs produced in write order; each
`new Date().toISOString()` call draws the next value from an explicit
clock `Nat → String` indexed by call order.
-/

/-- JSON-like values as produced by `JSON.parse`.  Object fields keep their
textual order, as JavaScript objects do; `JSON.parse` yields unique keys. -/
inductive Json where
  | null
  | boolean (b : Bool)
  | num (n : Int)
  | str (s : String)
  | arr (elems : List Json)
  | obj (fields : List (String × Json))

/-- First-match lookup in an ordered field list (JS property read; keys of a
parsed object are unique, so first match is exact). -/
def lookupField : List (String × Json) → String → Option Json
  | [], _ => none
  | (k, v) :: fs, key => if k = key then some v else lookupField fs key

/-- JS property access `value.key`; `none` stands for `undefined`. -/
def Json.lookup : Json → String → Option Json
  | .obj fs, key => lookupField fs key
  | _, _ => none

/-- JS truthiness of a defined value. -/
def Json.truthy : Json → Bool
  | .null => false
  | .boolean b => b
  | .num n => n != 0
  | .str s => s != ""
  | .arr _ => true
  | .obj _ => true

/-- JS truthiness where `none` is `undefined` (absent property), hence falsy. -/
def truthyOpt : Option Json → Bool
  | none => false
  | some v => v.truthy

/-- `Array.isArray` applied to a possibly-undefined value. -/
def isArrOpt : Option Json → Bool
  | some (.arr _) => true
  | _ => false

/-- Elements of a value checked to be an array. -/
def arrElemsOpt : Option Json → List Json
  | some (.arr xs) => xs
  | _ => []

/-- Field list of a value known to be an object (object spread of the
non-object values occurring in a registry contributes no fields). -/
def objFields : Json → List (String × Json)
  | .obj fs => fs
  | _ => []

/-- The double-quote character, written via its code point. -/
def quoteC : Char := Char.ofNat 34

/-- The apostrophe character, written via its code point. -/
def aposC : Char := Char.ofNat 39

/-- JS `String(value)` conversion as used by template literals and
`escapeHtml`.  Arrays stringify as comma-joined elements, objects as
`[object Object]`, mirroring JavaScript defaults. -/
def jsToString : Json → String
  | .null => "null"
  | .boolean b => cond b "true" "false"
  | .num n => toString n
  | .str s => s
  | .arr xs => String.intercalate "," (xs.attach.map (fun x => jsToString x.1))
  | .obj _ => "[object Object]"
decreasing_by
  have h1 := List.sizeOf_lt_of_mem x.2
  simp only [Json.arr.sizeOf_spec]
  omega

/-- Template-literal interpolation `${v}` of a possibly-undefined value. -/
def jsTemplate : Option Json → String
  | none => "undefined"
  | some v => jsToString v

/-- Per-character expansion realised by the chain of `.replace` calls in
`escapeHtml`: `&` is replaced first, so the ampersands introduced by the
later replacements are never re-escaped, and the chain acts as one
character-by-character map. -/
def escChar (c : Char) : List Char :=
  if c = '&' then ['&', 'a', 'm', 'p', ';']
  else if c = '<' then ['&', 'l', 't', ';']
  else if c = '>' then ['&', 'g', 't', ';']
  else if c = quoteC then ['&', 'q', 'u', 'o', 't', ';']
  else if c = aposC then ['&', '#', '0', '3', '9', ';']
  else [c]

/-- HTML-escaping of a character list. -/
def escapeHtmlList (cs : List Char) : List Char := (cs.map escChar).flatten

/-- HTML-escaping of a (non-empty-checked) string, the `.replace` chain of
`escapeHtml` in `generate-registry-endpoints.js` and `part_000`. -/
def escapeHtmlString (s : String) : String := String.mk (escapeHtmlList s.data)

/-- Model of `escapeHtml(text)`: falsy input (absent field, null, empty
string, 0, false) returns the empty string; otherwise the value is
converted with `String(...)` and entity-escaped. -/
def escapeHtml (text : Option Json) : String :=
  if truthyOpt text then escapeHtmlString (jsToString (text.getD .null)) else ""

/-- Entity recognition after an ampersand, used by the decoder: the five
entities emitted by `escapeHtml` with the decoded character and entity
length. -/
def entAfterAmp (rest : List Char) : Option (Char × Nat) :=
  if rest.take 4 = ['a', 'm', 'p', ';'] then some ('&', 4)
  else if rest.take 3 = ['l', 't', ';'] then some ('<', 3)
  else if rest.take 3 = ['g', 't', ';'] then some ('>', 3)
  else if rest.take 5 = ['q', 'u', 'o', 't', ';'] then some (quoteC, 5)
  else if rest.take 5 = ['#', '0', '3', '9', ';'] then some (aposC, 5)
  else none

/-- Modelled from the spec: un-escaping of HTML entities (the decoding step
of the "escaping idempotence" property; the repository itself only encodes).
An ampersand followed by one of the five produced entities decodes to the
original character; any other character is copied verbatim. -/
def unescapeHtmlList : List Char → List Char
  | [] => []
  | c :: rest =>
    if c = '&' then
      match entAfterAmp rest with
      | some (d, n) => d :: unescapeHtmlList (rest.drop n)
      | none => c :: unescapeHtmlList rest
    else c :: unescapeHtmlList rest
termination_by cs => cs.length
decreasing_by
  · simp; omega
  · simp
  · simp

/-- String-level entity decoder. -/
def unescapeHtmlString (s : String) : String := String.mk (unescapeHtmlList s.data)

/-- Constant `SCHEMA_URL` of `part_000` and `part_001`. -/
def SCHEMA_URL : String :=
  "https://static.modelcontextprotocol.io/schemas/2025-09-29/server.schema.json"

/-- Constant `OUTPUT_DIR`. -/
def OUTPUT_DIR : String := "dist"

/-- Constant `API_BASE`. -/
def API_BASE : String := "v0.1"

/-- Vendor namespace key of the `_meta` block. -/
def officialKey : String := "io.modelcontextprotocol.registry/official"

/-- JS object-literal assignment of one key: an existing key keeps its
position and receives the new value, a new key is appended. -/
def jsInsert (fs : List (String × Json)) (k : String) (v : Json) :
    List (String × Json) :=
  if fs.any (fun p => p.1 == k) then
    fs.map (fun p => if p.1 = k then (k, v) else p)
  else fs ++ [(k, v)]

/-- JS object spread `{ ...init, ...fs }` restricted to the tail: folds the
spread fields into an initial field list with JS assignment semantics. -/
def jsSpread (init fs : List (String × Json)) : List (String × Json) :=
  fs.foldl (fun acc p => jsInsert acc p.1 p.2) init

/-- `wrapServerResponse(serverData, isLatest)` of `part_000` and `part_001`,
with the single `new Date().toISOString()` draw passed in as `now`. -/
def wrapServerResponse (serverData : List (String × Json)) (isLatest : Bool)
    (now : String) : Json :=
  .obj [("server", .obj (jsSpread [("$schema", .str SCHEMA_URL)] serverData)),
        ("_meta", .obj [(officialKey, .obj
          [("status", .str "active"),
           ("publishedAt", .str now),
           ("updatedAt", .str now),
           ("isLatest", .boolean isLatest)])])]

/-- Terminal failures of loader and validator (each is a diagnostic plus
`process.exit(1)` in the scripts). -/
inductive BuildErr where
  | schemaErr
  | missingField (index : Nat)
  | invalidId (id : String)
deriving DecidableEq

/-- Document written to one output file. `json` is an `index.json` body,
`html` an `index.html` mirror carrying its title and embedded document, and
`landing` the landing page reduced to its data (server count, escaped
id/name/version rows, optional build timestamp); the fixed HTML shell and
stylesheet around that data are presentation only. -/
inductive Content where
  | json (data : Json)
  | html (title : String) (data : Json)
  | landing (serverCount : Nat) (items : List (String × String × String))
      (ts : Option String)

/-- One filesystem write: the path (as segments) and the document. -/
structure FileWrite where
  path : List String
  content : Content

/-- JSON string-body escaping used by `JSON.stringify` (quote, backslash
and common control characters; other code points are emitted verbatim). -/
def jsonEscChar (c : Char) : List Char :=
  if c = quoteC then [Char.ofNat 92, quoteC]
  else if c = Char.ofNat 92 then [Char.ofNat 92, Char.ofNat 92]
  else if c = Char.ofNat 10 then [Char.ofNat 92, 'n']
  else if c = Char.ofNat 13 then [Char.ofNat 92, 'r']
  else if c = Char.ofNat 9 then [Char.ofNat 92, 't']
  else [c]

/-- Quoted JSON string literal. -/
def jsonQuote (s : String) : String :=
  String.mk (quoteC :: (s.data.map jsonEscChar).flatten ++ [quoteC])

/-- Indentation prefix for `JSON.stringify(data, null, 2)`. -/
def indentStr (n : Nat) : String := String.mk (List.replicate (2 * n) ' ')

/-- Model of `JSON.stringify(data, null, 2)` at nesting depth `ind`. -/
def stringifyAux : Nat → Json → String
  | _, .null => "null"
  | _, .boolean b => cond b "true" "false"
  | _, .num n => toString n
  | _, .str s => jsonQuote s
  | ind, .arr xs =>
      if xs.isEmpty then "[]"
      else "[\n" ++ String.intercalate ",\n"
             (xs.attach.map (fun x => indentStr (ind + 1) ++ stringifyAux (ind + 1) x.1))
           ++ "\n" ++ indentStr ind ++ "]"
  | ind, .obj fs =>
      if fs.isEmpty then "\x7b\x7d"
      else "\x7b\n" ++ String.intercalate ",\n"
             (fs.attach.map (fun p =>
               indentStr (ind + 1) ++ jsonQuote p.1.1 ++ ": "
                 ++ stringifyAux (ind + 1) p.1.2))
           ++ "\n" ++ indentStr ind ++ "\x7d"
termination_by _ j => sizeOf j
decreasing_by
  · have h1 := List.sizeOf_lt_of_mem x.2
    simp only [Json.arr.sizeOf_spec]
    omega
  · have h1 := List.sizeOf_lt_of_mem p.2
    have h2 : sizeOf p.1.2 < sizeOf p.1 := by
      obtain ⟨⟨k, v⟩, hp⟩ := p
      simp only [Prod.mk.sizeOf_spec]
      omega
    simp only [Json.obj.sizeOf_spec]
    omega

/-- `JSON.stringify(data, null, 2)`, as written by `writeJSON`. -/
def stringify (data : Json) : String := stringifyAux 0 data

/-- Text stored in an `index.json` file by `writeJSON`. -/
def jsonFileText (data : Json) : String := stringify data

/-- Text embedded in the `<pre><code>` block of the sibling `index.html`
written by `writeHTML`: the same serialization passed through
`escapeHtml`. -/
def htmlPreBlock (data : Json) : String :=
  escapeHtml (some (.str (stringify data)))

/-- Validator regex `/^[a-z0-9\-]+$/i.test(id)` of
`generate-registry-endpoints.js`: one or more characters, each a letter
(either case), a digit, or a hyphen.  Note: no dot. -/
def Gen.isValidServerId (id : String) : Bool :=
  id.length > 0 && id.data.all (fun c =>
    (Char.ofNat 97 ≤ c && c ≤ Char.ofNat 122)
    || (Char.ofNat 65 ≤ c && c ≤ Char.ofNat 90)
    || (Char.ofNat 48 ≤ c && c ≤ Char.ofNat 57)
    || c == '-')

/-- Validator regex `/^[a-z0-9\-.]+$/i.test(id)` of `part_000`: as in the
main script but additionally allowing the dot. -/
def Wrapped.isValidServerId (id : String) : Bool :=
  id.length > 0 && id.data.all (fun c =>
    (Char.ofNat 97 ≤ c && c ≤ Char.ofNat 122)
    || (Char.ofNat 65 ≤ c && c ≤ Char.ofNat 90)
    || (Char.ofNat 48 ≤ c && c ≤ Char.ofNat 57)
    || c == '-'
    || c == '.')

/-- Modelled from the spec: the identifier grammar `^[A-Za-z0-9.\-]+$`
(letters, digits, dot, hyphen only, at least one character). -/
def matchesIdGrammarDot (s : String) : Prop :=
  s.data ≠ [] ∧ ∀ c ∈ s.data,
    (Char.ofNat 65 ≤ c ∧ c ≤ Char.ofNat 90)
    ∨ (Char.ofNat 97 ≤ c ∧ c ≤ Char.ofNat 122)
    ∨ (Char.ofNat 48 ≤ c ∧ c ≤ Char.ofNat 57)
    ∨ c = '.' ∨ c = '-'

/-- The dot-free grammar `^[A-Za-z0-9\-]+$` actually enforced by the main
script. -/
def matchesIdGrammarNoDot (s : String) : Prop :=
  s.data ≠ [] ∧ ∀ c ∈ s.data,
    (Char.ofNat 65 ≤ c ∧ c ≤ Char.ofNat 90)
    ∨ (Char.ofNat 97 ≤ c ∧ c ≤ Char.ofNat 122)
    ∨ (Char.ofNat 48 ≤ c ∧ c ≤ Char.ofNat 57)
    ∨ c = '-'

/-- Required-field test of one entry in `readRegistry`:
`!server.id || !server.name || !server.version`. -/
def Gen.missingReq (server : Json) : Bool :=
  !truthyOpt (server.lookup "id")
  || !truthyOpt (server.lookup "name")
  || !truthyOpt (server.lookup "version")

/-- Body of the `forEach` validation callback in `readRegistry` of
`generate-registry-endpoints.js`: required fields first, then the id
grammar; each failure is a diagnostic plus `process.exit(1)`. -/
def Gen.validateServer (index : Nat) (server : Json) : Except BuildErr Unit :=
  if Gen.missingReq server then .error (.missingField index)
  else if !Gen.isValidServerId (jsToString ((server.lookup "id").getD .null)) then
    .error (.invalidId (jsToString ((server.lookup "id").getD .null)))
  else .ok ()

/-- Left-to-right scan of `registry.servers.forEach((server, index) => ...)`;
`process.exit(1)` inside the callback stops the process, so the scan
short-circuits at the first failing entry. -/
def Gen.validateServers : Nat → List Json → Except BuildErr Unit
  | _, [] => .ok ()
  | index, server :: rest =>
    match Gen.validateServer index server with
    | .error e => .error e
    | .ok _ => Gen.validateServers (index + 1) rest

/-- Validation performed by `readRegistry` of the main script after a
successful parse: the shape check
`!registry.servers || !Array.isArray(registry.servers)` (an array, even
empty, is truthy, so the combined test is exactly "not an array"),
then the per-entry scan; on success the servers are returned. -/
def Gen.checkRegistry (registry : Json) : Except BuildErr (List Json) :=
  if !truthyOpt (registry.lookup "servers")
      || !isArrOpt (registry.lookup "servers") then
    .error .schemaErr
  else
    match Gen.validateServers 0 (arrElemsOpt (registry.lookup "servers")) with
    | .error e => .error e
    | .ok _ => .ok (arrElemsOpt (registry.lookup "servers"))

/-- Path prefix `path.join(OUTPUT_DIR, API_BASE, 'servers')`. -/
def serversPath : List String := [OUTPUT_DIR, API_BASE, "servers"]

/-- `generateServersEndpoint`: the listing document, written verbatim as
JSON and mirrored as HTML (identical in the main script and `part_000`). -/
def Gen.generateServersEndpoint (registry : Json) : List FileWrite :=
  [⟨serversPath ++ ["index.json"], .json registry⟩,
   ⟨serversPath ++ ["index.html"], .html "All MCP Servers" registry⟩]

/-- The six writes produced for one server by
`generateServerDetailEndpoints` of the main script: bare server path,
specific version, and latest alias, each as JSON plus HTML, all carrying
the raw server object (no envelope in this variant). -/
def Gen.serverWrites (server : Json) : List FileWrite :=
  [⟨serversPath ++ [jsTemplate (server.lookup "id"), "index.json"],
      .json server⟩,
   ⟨serversPath ++ [jsTemplate (server.lookup "id"), "index.html"],
      .html (jsTemplate (server.lookup "name") ++ " - Details") server⟩,
   ⟨serversPath ++ [jsTemplate (server.lookup "id"), "versions",
        jsTemplate (server.lookup "version"), "index.json"],
      .json server⟩,
   ⟨serversPath ++ [jsTemplate (server.lookup "id"), "versions",
        jsTemplate (server.lookup "version"), "index.html"],
      .html (jsTemplate (server.lookup "name") ++ " v"
          ++ jsTemplate (server.lookup "version")) server⟩,
   ⟨serversPath ++ [jsTemplate (server.lookup "id"), "versions", "latest",
        "index.json"],
      .json server⟩,
   ⟨serversPath ++ [jsTemplate (server.lookup "id"), "versions", "latest",
        "index.html"],
      .html (jsTemplate (server.lookup "name") ++ " (Latest)") server⟩]

/-- `generateServerDetailEndpoints(registry)` of the main script, guarded by
its own re-check of the servers array. -/
def Gen.generateServerDetailEndpoints (registry : Json) : List FileWrite :=
  if !truthyOpt (registry.lookup "servers")
      || !isArrOpt (registry.lookup "servers") then []
  else (arrElemsOpt (registry.lookup "servers")).flatMap Gen.serverWrites

/-- Server count shown by `generateIndexPage`:
`registry.servers ? registry.servers.length : 0` (reached only after
validation, where `servers` is an array). -/
def Gen.indexCount (registry : Json) : Nat :=
  match registry.lookup "servers" with
  | some (.arr xs) => xs.length
  | _ => 0

/-- Escaped id/name/version row of one landing-page list item. -/
def Gen.indexItem (server : Json) : String × String × String :=
  (escapeHtml (server.lookup "id"),
   escapeHtml (server.lookup "name"),
   escapeHtml (server.lookup "version"))

/-- `generateIndexPage` of the main script, reduced to its data: server
count, escaped rows, and the `new Date().toISOString()` build stamp. -/
def Gen.generateIndexPage (registry : Json) (now : String) : FileWrite :=
  ⟨[OUTPUT_DIR, "index.html"],
   .landing (Gen.indexCount registry)
     ((arrElemsOpt (registry.lookup "servers")).map Gen.indexItem)
     (some now)⟩

/-- `main()` of `generate-registry-endpoints.js`: the output directory is
cleared and re-created (hence empty), the registry is read and validated
(`process.exit(1)` on failure, so an error produces no document write), and
on success the listing, detail, and landing writes happen in order.  The
`.nojekyll`/`robots.txt` passthrough copies are external file copies, not
rendered documents, and are out of scope. -/
def Gen.run (registry : Json) (now : String) : Except BuildErr (List FileWrite) :=
  match Gen.checkRegistry registry with
  | .error e => .error e
  | .ok _ =>
    .ok (Gen.generateServersEndpoint registry
      ++ Gen.generateServerDetailEndpoints registry
      ++ [Gen.generateIndexPage registry now])

/-- Shape check of `readRegistry` in `part_000`: same array test as the main
script but with no per-entry validation at all (its `isValidServerId` is
defined yet never called). -/
def Wrapped.checkRegistry (registry : Json) : Except BuildErr (List Json) :=
  if !truthyOpt (registry.lookup "servers")
      || !isArrOpt (registry.lookup "servers") then
    .error .schemaErr
  else .ok (arrElemsOpt (registry.lookup "servers"))

/-- The four writes for one server in `part_000`: specific version and
latest alias, each JSON plus HTML.  `wrapServerResponse` is called once per
endpoint, so the two envelopes carry separate clock draws `t1` and `t2`. -/
def Wrapped.serverWrites (server : Json) (t1 t2 : String) : List FileWrite :=
  [⟨serversPath ++ [jsTemplate (server.lookup "id"), "versions",
        jsTemplate (server.lookup "version"), "index.json"],
      .json (wrapServerResponse (objFields server) true t1)⟩,
   ⟨serversPath ++ [jsTemplate (server.lookup "id"), "versions",
        jsTemplate (server.lookup "version"), "index.html"],
      .html (jsTemplate (server.lookup "name") ++ " v"
          ++ jsTemplate (server.lookup "version"))
        (wrapServerResponse (objFields server) true t1)⟩,
   ⟨serversPath ++ [jsTemplate (server.lookup "id"), "versions", "latest",
        "index.json"],
      .json (wrapServerResponse (objFields server) true t2)⟩,
   ⟨serversPath ++ [jsTemplate (server.lookup "id"), "versions", "latest",
        "index.html"],
      .html (jsTemplate (server.lookup "name") ++ " (Latest)")
        (wrapServerResponse (objFields server) true t2)⟩]

/-- `generateServerDetailEndpoints(registry)` of `part_000` (guard:
`if (!registry.servers) return;`); the i-th server performs the 2i-th and
(2i+1)-th `new Date()` calls. -/
def Wrapped.generateServerDetailEndpoints (registry : Json)
    (clock : Nat → String) : List FileWrite :=
  if !truthyOpt (registry.lookup "servers") then []
  else (arrElemsOpt (registry.lookup "servers")).enum.flatMap
    (fun p => Wrapped.serverWrites p.2 (clock (2 * p.1)) (clock (2 * p.1 + 1)))

/-- Landing page of `part_000`: bare count, no list, no timestamp. -/
def Wrapped.generateIndexPage (registry : Json) : FileWrite :=
  ⟨[OUTPUT_DIR, "index.html"],
   .landing (arrElemsOpt (registry.lookup "servers")).length [] none⟩

/-- `main()` of `part_000`: clear output, shape-check, then listing, detail
and landing writes. -/
def Wrapped.run (registry : Json) (clock : Nat → String) :
    Except BuildErr (List FileWrite) :=
  match Wrapped.checkRegistry registry with
  | .error e => .error e
  | .ok _ =>
    .ok (Gen.generateServersEndpoint registry
      ++ Wrapped.generateServerDetailEndpoints registry clock
      ++ [Wrapped.generateIndexPage registry])

/-- The two writes for one server in `part_001`: `wrapServerResponse` is
called once and the same `responseData` object is written at both the
specific-version path and the latest path. -/
def JsonOnly.serverWrites (server : Json) (t : String) : List FileWrite :=
  [⟨serversPath ++ [jsTemplate (server.lookup "id"), "versions",
        jsTemplate (server.lookup "version"), "index.json"],
      .json (wrapServerResponse (objFields server) true t)⟩,
   ⟨serversPath ++ [jsTemplate (server.lookup "id"), "versions", "latest",
        "index.json"],
      .json (wrapServerResponse (objFields server) true t)⟩]

/-- `main()` of `part_001`: its `readRegistry` only parses (no schema
check), the listing is written unconditionally, and the per-server loop is
guarded by `registry.servers && Array.isArray(registry.servers)`.  The i-th
server performs the i-th `new Date()` call.  No failure path exists after a
successful parse, so the result is a plain write list. -/
def JsonOnly.main (registry : Json) (clock : Nat → String) : List FileWrite :=
  ⟨serversPath ++ ["index.json"], .json registry⟩ ::
  (if truthyOpt (registry.lookup "servers")
      && isArrOpt (registry.lookup "servers") then
    (arrElemsOpt (registry.lookup "servers")).enum.flatMap
      (fun p => JsonOnly.serverWrites p.2 (clock p.1))
  else [])

/-- The `server` sub-object of a detail document. -/
def serverPartFields (j : Json) : List (String × Json) :=
  objFields ((j.lookup "server").getD .null)

/-- The vendor-namespaced `_meta` block of a detail document. -/
def metaOfficial (j : Json) : Option Json :=
  (j.lookup "_meta").bind (fun m => m.lookup officialKey)

/-- Field of the `_meta` block. -/
def metaFieldOf (j : Json) (key : String) : Option Json :=
  (metaOfficial j).bind (fun b => b.lookup key)

/-- Removal of one named field from a field list (the read-back step of the
round-trip property: drop the injected `$schema`). -/
def removeField (key : String) (fs : List (String × Json)) :
    List (String × Json) :=
  fs.filter (fun p => p.1 != key)

/-- Empty registry input of the empty-registry scenario. -/
def emptyReg : Json := .obj [("servers", .arr [])]

/-- Registry whose `servers` field is null. -/
def badReg : Json := .obj [("servers", .null)]

/-- Valid server entry. -/
def srvA : Json :=
  .obj [("id", .str "alpha"), ("name", .str "Alpha"), ("version", .str "1.0.0")]

/-- Server entry whose id violates both grammars (contains a space) while
all required fields are present and non-empty. -/
def srvBadId : Json :=
  .obj [("id", .str "a b"), ("name", .str "n"), ("version", .str "1")]

/-- Server entry with an empty `name` (missing-required-field violation). -/
def srvMissing : Json :=
  .obj [("id", .str "x"), ("name", .str ""), ("version", .str "1")]

/-- Registry holding the single valid server `srvA`. -/
def regA : Json := .obj [("servers", .arr [srvA])]

/-- Clock whose first two draws differ by one millisecond: two consecutive
`new Date().toISOString()` calls may legitimately return these values. -/
def clk2 : Nat → String :=
  fun n => if n == 0 then "2026-01-01T00:00:00.000Z" else "2026-01-01T00:00:00.001Z"

/-- Constant test clock. -/
def clkT : Nat → String := fun _ => "T"

/-- Server field list carrying its own `$schema` field. -/
def fsC4 : List (String × Json) :=
  [("$schema", .str "https://example.com/own.json"), ("id", .str "srv")]

/-- Server field list with unique keys and no `$schema` of its own. -/
def fsGood : List (String × Json) :=
  [("id", .str "srv"), ("name", .str "S"), ("version", .str "1")]

/-- Server entry lacking the `name` field; `part_000` performs no
per-entry validation, so such an entry reaches its renderer. -/
def srvNoName : Json := .obj [("id", .str "x"), ("version", .str "1")]

/-!  Theorems.  -/

theorem jsToString_null : jsToString .null = "null" := by simp [jsToString]

theorem jsToString_str (s : String) : jsToString (.str s) = s := by
  simp [jsToString]

theorem jsToString_num (n : Int) : jsToString (.num n) = toString n := by
  simp [jsToString]

theorem unescape_escape_list (cs : List Char) :
    unescapeHtmlList (escapeHtmlList cs) = cs := by
  induction cs with
  | nil => simp [escapeHtmlList, unescapeHtmlList]
  | cons c rest ih =>
    have hstep : escapeHtmlList (c :: rest) = escChar c ++ escapeHtmlList rest := by
      simp [escapeHtmlList]
    rw [hstep]
    by_cases h1 : c = '&'
    · subst h1
      simp [escChar, unescapeHtmlList, entAfterAmp, quoteC, aposC, ih]
    · by_cases h2 : c = '<'
      · subst h2
        simp [escChar, unescapeHtmlList, entAfterAmp, quoteC, aposC, ih]
      · by_cases h3 : c = '>'
        · subst h3
          simp [escChar, unescapeHtmlList, entAfterAmp, quoteC, aposC, ih]
        · by_cases h4 : c = quoteC
          · subst h4
            simp [escChar, unescapeHtmlList, entAfterAmp, quoteC, aposC, ih]
          · by_cases h5 : c = aposC
            · subst h5
              simp [escChar, unescapeHtmlList, entAfterAmp, quoteC, aposC, ih]
            · rw [show escChar c = [c] from by simp [escChar, h1, h2, h3, h4, h5]]
              rw [List.singleton_append]
              rw [show unescapeHtmlList (c :: escapeHtmlList rest)
                    = c :: unescapeHtmlList (escapeHtmlList rest) from by
                simp [unescapeHtmlList, h1]]
              rw [ih]

theorem unescape_escape_string (s : String) :
    unescapeHtmlString (escapeHtmlString s) = s := by
  show String.mk (unescapeHtmlList (escapeHtmlList s.data)) = s
  rw [unescape_escape_list]

theorem escapeHtml_str (s : String) :
    escapeHtml (some (.str s)) = escapeHtmlString s := by
  by_cases h : s = ""
  · subst h
    have h1 : escapeHtml (some (.str "")) = "" := rfl
    have h2 : escapeHtmlString "" = "" := rfl
    rw [h1, h2]
  · unfold escapeHtml
    simp [truthyOpt, Json.truthy, h, jsToString_str]

/-- C5: for every rendered document, un-escaping the HTML entities of the
JSON text embedded in the `<pre>` block of the HTML mirror reproduces, byte
for byte, the serialized JSON written to the sibling `index.json`
(`writeHTML` escapes the same `JSON.stringify(data, null, 2)` string that
`writeJSON` writes, and the escaping is losslessly undone by entity
decoding, whatever characters the document contains). -/
theorem c5_escaping_roundtrip (data : Json) :
    unescapeHtmlString (htmlPreBlock data) = jsonFileText data := by
  unfold htmlPreBlock jsonFileText
  rw [escapeHtml_str, unescape_escape_string]

/-- Falsy inputs (undefined, null, the empty string, 0, false) are mapped
to the empty string by `escapeHtml`. -/
theorem escapeHtml_falsy (v : Option Json) (h : truthyOpt v = false) :
    escapeHtml v = "" := by
  unfold escapeHtml
  simp [h]

/-- Claim C10 (counterexample): HTML titles are built by template literals
from the raw fields before any escaping, so in `part_000` (which never
validates entries) a server lacking `name` renders the latest-alias HTML
title as `undefined (Latest)`: the missing field becomes the string
`undefined`, not empty text. -/
theorem c10_counterexample :
    ((Wrapped.serverWrites srvNoName "T" "T").map (fun w => w.content))[3]?
      = some (.html "undefined (Latest)"
          (wrapServerResponse (objFields srvNoName) true "T")) := rfl

/-- Claim C10 (amended): the HTML escaping function maps every falsy input
(undefined, null, the empty string, 0, false) to the empty string, so a
falsy field passed through `escapeHtml` — as the landing page's
interpolated id/name/version rows are — renders as empty text, never as
the string `undefined` or `null`; HTML titles, however, interpolate the
raw fields via template literals before escaping, so a `part_000` server
lacking `name` produces a title containing the string `undefined`. -/
theorem c10_falsy_amended :
    (∀ v : Option Json, truthyOpt v = false → escapeHtml v = "")
    ∧ (∀ server : Json, truthyOpt (server.lookup "name") = false →
        (Gen.indexItem server).2.1 = "")
    ∧ (∀ (server : Json) (t1 t2 : String), server.lookup "name" = none →
        ((Wrapped.serverWrites server t1 t2).map (fun w => w.content))[3]?
          = some (.html "undefined (Latest)"
              (wrapServerResponse (objFields server) true t2))) := by
  refine ⟨escapeHtml_falsy, ?_, ?_⟩
  · intro server h
    show escapeHtml (server.lookup "name") = ""
    exact escapeHtml_falsy (server.lookup "name") h
  · intro server t1 t2 h
    show some (Content.html (jsTemplate (server.lookup "name") ++ " (Latest)")
        (wrapServerResponse (objFields server) true t2))
      = some (Content.html "undefined (Latest)"
          (wrapServerResponse (objFields server) true t2))
    rw [h]
    rw [show jsTemplate none ++ " (Latest)" = "undefined (Latest)" from by decide]

theorem c10_witness :
    escapeHtml (some (.num 0)) = ""
    ∧ escapeHtml none = ""
    ∧ escapeHtml (some .null) = ""
    ∧ escapeHtml (some (.str "")) = ""
    ∧ escapeHtml (some (.boolean false)) = ""
    ∧ (Gen.indexItem (Json.obj [("id", Json.str "x")])).2.1 = ""
    ∧ ((Wrapped.serverWrites srvNoName "T1" "T2").map (fun w => w.content))[3]?
        = some (.html "undefined (Latest)"
            (wrapServerResponse (objFields srvNoName) true "T2")) :=
  ⟨c10_falsy_amended.1 (some (.num 0)) (by decide),
   c10_falsy_amended.1 none (by decide),
   c10_falsy_amended.1 (some .null) (by decide),
   c10_falsy_amended.1 (some (.str "")) (by decide),
   c10_falsy_amended.1 (some (.boolean false)) (by decide),
   c10_falsy_amended.2.1 (Json.obj [("id", Json.str "x")]) (by decide),
   c10_falsy_amended.2.2 srvNoName "T1" "T2" rfl⟩

theorem lookupField_append (a b : List (String × Json)) (k : String) :
    lookupField (a ++ b) k =
      match lookupField a k with
      | some v => some v
      | none => lookupField b k := by
  induction a with
  | nil => simp [lookupField]
  | cons p fs ih =>
    obtain ⟨k1, v1⟩ := p
    by_cases h : k1 = k
    · simp [lookupField, h]
    · simp [lookupField, h, ih]

theorem lookupField_eq_none_of_not_mem (fs : List (String × Json)) (k : String)
    (h : k ∉ fs.map Prod.fst) : lookupField fs k = none := by
  induction fs with
  | nil => simp [lookupField]
  | cons p rest ih =>
    obtain ⟨k1, v1⟩ := p
    simp only [List.map_cons, List.mem_cons] at h
    push_neg at h
    have hne : ¬(k1 = k) := fun he => h.1 he.symm
    simp only [lookupField, if_neg hne]
    exact ih h.2

theorem lookupField_map_replace (k1 : String) (v1 : Json)
    (acc : List (String × Json)) (k : String) :
    lookupField (acc.map (fun p => if p.1 = k1 then (k1, v1) else p)) k =
      if k1 = k then
        (if acc.any (fun p => p.1 == k1) then some v1 else none)
      else lookupField acc k := by
  induction acc with
  | nil => simp [lookupField]
  | cons p rest ih =>
    obtain ⟨ka, va⟩ := p
    simp only [List.map_cons, List.any_cons]
    by_cases h1 : ka = k1
    · subst h1
      rw [if_pos rfl]
      by_cases h2 : ka = k
      · subst h2
        simp [lookupField]
      · simp [lookupField, h2, ih]
    · rw [if_neg h1]
      by_cases h2 : ka = k
      · subst h2
        have h3 : ¬(k1 = ka) := fun he => h1 he.symm
        simp [lookupField, h1, h3, ih]
      · have hbe : (ka == k1) = false := by simp [h1]
        simp only [lookupField, if_neg h2, List.any_cons, hbe, Bool.false_or, ih]

theorem lookupField_jsInsert (acc : List (String × Json)) (k1 : String)
    (v1 : Json) (k : String) :
    lookupField (jsInsert acc k1 v1) k =
      if k1 = k then some v1 else lookupField acc k := by
  unfold jsInsert
  by_cases hp : (acc.any (fun p => p.1 == k1)) = true
  · simp [hp, lookupField_map_replace]
  · rw [if_neg (by simp [hp]), lookupField_append]
    have hnone : lookupField acc k1 = none := by
      apply lookupField_eq_none_of_not_mem
      intro hm
      apply hp
      simp only [List.mem_map] at hm
      obtain ⟨p, hpm, hpe⟩ := hm
      simp only [List.any_eq_true]
      exact ⟨p, hpm, by simp [hpe]⟩
    by_cases hk : k1 = k
    · subst hk
      simp [hnone, lookupField]
    · cases hacc : lookupField acc k
      · simp [lookupField, hk, hacc]
      · simp [lookupField, hk, hacc]

theorem lookupField_jsSpread (fs : List (String × Json)) :
    ∀ (init : List (String × Json)) (k : String),
      lookupField (jsSpread init fs) k =
        match lookupField fs.reverse k with
        | some v => some v
        | none => lookupField init k := by
  induction fs with
  | nil => intro init k; simp [jsSpread, lookupField]
  | cons p fs ih =>
    intro init k
    obtain ⟨k1, v1⟩ := p
    have hstep : jsSpread init ((k1, v1) :: fs) = jsSpread (jsInsert init k1 v1) fs := rfl
    rw [hstep, ih, List.reverse_cons, lookupField_append]
    cases hl : lookupField fs.reverse k
    · rw [lookupField_jsInsert]
      by_cases hk : k1 = k
      · subst hk
        simp [lookupField]
      · simp [lookupField, hk]
    · simp

theorem lookupField_reverse_of_nodup (fs : List (String × Json))
    (h : (fs.map Prod.fst).Nodup) (k : String) :
    lookupField fs.reverse k = lookupField fs k := by
  induction fs with
  | nil => simp
  | cons p rest ih =>
    obtain ⟨k1, v1⟩ := p
    simp only [List.map_cons, List.nodup_cons] at h
    rw [List.reverse_cons, lookupField_append, ih h.2]
    by_cases hk : k1 = k
    · subst hk
      have hnone : lookupField rest k1 = none :=
        lookupField_eq_none_of_not_mem rest k1 h.1
      simp [hnone, lookupField]
    · cases hacc : lookupField rest k
      · simp [lookupField, hk, hacc]
      · simp [lookupField, hk, hacc]

theorem jsSpread_eq_append (fs : List (String × Json)) :
    ∀ init : List (String × Json),
      (∀ p ∈ fs, p.1 ∉ init.map Prod.fst) → (fs.map Prod.fst).Nodup →
      jsSpread init fs = init ++ fs := by
  induction fs with
  | nil => intro init _ _; simp [jsSpread]
  | cons p fs ih =>
    intro init hdisj hnodup
    obtain ⟨k1, v1⟩ := p
    simp only [List.map_cons, List.nodup_cons] at hnodup
    have hstep : jsSpread init ((k1, v1) :: fs) = jsSpread (jsInsert init k1 v1) fs := rfl
    have hins : jsInsert init k1 v1 = init ++ [(k1, v1)] := by
      unfold jsInsert
      rw [if_neg]
      simp only [List.any_eq_true, not_exists]
      intro p1
      rw [not_and]
      intro hp1
      simp only [beq_iff_eq]
      intro hpe
      exact (hdisj (k1, v1) (by simp))
        (by simp only [List.mem_map]; exact ⟨p1, hp1, hpe⟩)
    rw [hstep, hins, ih (init ++ [(k1, v1)]) ?_ hnodup.2, List.append_assoc]
    · simp
    · intro p hp
      simp only [List.map_append, List.mem_append, List.map_cons]
      push_neg
      constructor
      · exact hdisj p (by simp [hp])
      · simp only [List.map_nil, List.mem_singleton]
        intro hpe
        exact hnodup.1 (by rw [← hpe]; exact List.mem_map_of_mem Prod.fst hp)

theorem lookupField_eq_none_iff (fs : List (String × Json)) (k : String) :
    lookupField fs k = none ↔ k ∉ fs.map Prod.fst := by
  induction fs with
  | nil => simp [lookupField]
  | cons p rest ih =>
    obtain ⟨k1, v1⟩ := p
    by_cases h : k1 = k
    · subst h
      simp [lookupField]
    · have hs : ¬(k = k1) := fun he => h he.symm
      simp [lookupField, h, ih, hs]

/-- Claim C4 (amended): for every server record whose field keys are
distinct and do not include `$schema`, parsing the detail document back and
removing the injected `$schema` from the `server` sub-object returns
exactly the original field list — nothing added, dropped, changed, or
reordered.  (A record carrying its own `$schema` is the exception forced by
the counterexample: its value overwrites the injected one and is then lost
by the removal.) -/
theorem c4_roundtrip_amended (fs : List (String × Json)) (b : Bool) (t : String)
    (h1 : "$schema" ∉ fs.map Prod.fst) (h2 : (fs.map Prod.fst).Nodup) :
    removeField "$schema" (serverPartFields (wrapServerResponse fs b t)) = fs := by
  have hsp : serverPartFields (wrapServerResponse fs b t)
      = jsSpread [("$schema", Json.str SCHEMA_URL)] fs := rfl
  have hdisj : ∀ p ∈ fs, p.1 ∉ ([("$schema", Json.str SCHEMA_URL)]).map Prod.fst := by
    intro p hp
    simp only [List.map_cons, List.map_nil, List.mem_singleton]
    intro hpe
    exact h1 (hpe ▸ List.mem_map_of_mem Prod.fst hp)
  rw [hsp, jsSpread_eq_append fs [("$schema", Json.str SCHEMA_URL)] hdisj h2]
  unfold removeField
  rw [List.filter_append]
  rw [show List.filter (fun p => p.1 != "$schema")
        [("$schema", Json.str SCHEMA_URL)] = [] from rfl]
  rw [List.nil_append]
  apply List.filter_eq_self.mpr
  intro p hp
  simp only [bne_iff_ne, ne_eq]
  intro hpe
  exact h1 (hpe ▸ List.mem_map_of_mem Prod.fst hp)

/-- Claim C4 (counterexample): a server record that carries its own
`$schema` field does not round-trip: the read-back drops that field. -/
theorem c4_counterexample :
    removeField "$schema" (serverPartFields (wrapServerResponse fsC4 true "T")) ≠ fsC4 := by
  have h : removeField "$schema" (serverPartFields (wrapServerResponse fsC4 true "T"))
      = [("id", Json.str "srv")] := rfl
  rw [h]
  intro hEq
  have hlen := congrArg List.length hEq
  simp [fsC4] at hlen

theorem c4_witness :
    ("$schema" ∉ fsGood.map Prod.fst)
    ∧ (fsGood.map Prod.fst).Nodup
    ∧ removeField "$schema" (serverPartFields (wrapServerResponse fsGood true "T"))
        = fsGood :=
  ⟨by decide, by decide, c4_roundtrip_amended fsGood true "T" (by decide) (by decide)⟩

/-- Claim C9: when a server record carries its own `$schema` field, the
rendered `server.$schema` is the record's value (the spread placed after
the injected field overwrites it); the constant schema URL appears exactly
when the record has no `$schema` of its own. -/
theorem c9_schema_override (fs : List (String × Json)) (b : Bool) (t : String) :
    (lookupField fs "$schema" = none →
      lookupField (serverPartFields (wrapServerResponse fs b t)) "$schema"
        = some (.str SCHEMA_URL))
    ∧ (∀ v : Json, (fs.map Prod.fst).Nodup → lookupField fs "$schema" = some v →
      lookupField (serverPartFields (wrapServerResponse fs b t)) "$schema"
        = some v) := by
  have hsp : serverPartFields (wrapServerResponse fs b t)
      = jsSpread [("$schema", Json.str SCHEMA_URL)] fs := rfl
  constructor
  · intro hnone
    rw [hsp, lookupField_jsSpread]
    have hrev : lookupField fs.reverse "$schema" = none := by
      rw [lookupField_eq_none_iff] at hnone ⊢
      simpa using hnone
    rw [hrev]
    simp [lookupField]
  · intro v hnodup hsome
    rw [hsp, lookupField_jsSpread, lookupField_reverse_of_nodup fs hnodup, hsome]

theorem c9_witness :
    lookupField (serverPartFields (wrapServerResponse fsGood true "T")) "$schema"
      = some (Json.str SCHEMA_URL)
    ∧ lookupField (serverPartFields (wrapServerResponse fsC4 true "T")) "$schema"
      = some (Json.str "https://example.com/own.json") :=
  ⟨(c9_schema_override fsGood true "T").1 rfl,
   (c9_schema_override fsC4 true "T").2 (Json.str "https://example.com/own.json")
     (by decide) rfl⟩

/-- Claim C6: in every detail document built with the envelope, the
vendor-namespaced `_meta` block has `status = "active"`, `publishedAt` and
`updatedAt` both equal to the build timestamp of that rendering, and
`isLatest = true`; and every envelope call site (`part_000` and `part_001`
detail endpoints) invokes `wrapServerResponse` with `isLatest = true`. -/
theorem c6_meta_block (fs : List (String × Json)) (now : String) :
    metaFieldOf (wrapServerResponse fs true now) "status" = some (.str "active")
    ∧ metaFieldOf (wrapServerResponse fs true now) "publishedAt" = some (.str now)
    ∧ metaFieldOf (wrapServerResponse fs true now) "updatedAt" = some (.str now)
    ∧ metaFieldOf (wrapServerResponse fs true now) "isLatest"
        = some (.boolean true)
    ∧ (∀ (server : Json) (t : String),
        (JsonOnly.serverWrites server t).map (fun w => w.content)
          = [.json (wrapServerResponse (objFields server) true t),
             .json (wrapServerResponse (objFields server) true t)])
    ∧ (∀ (server : Json) (t1 t2 : String),
        (Wrapped.serverWrites server t1 t2).map (fun w => w.content)
          = [.json (wrapServerResponse (objFields server) true t1),
             .html (jsTemplate (server.lookup "name") ++ " v"
                 ++ jsTemplate (server.lookup "version"))
               (wrapServerResponse (objFields server) true t1),
             .json (wrapServerResponse (objFields server) true t2),
             .html (jsTemplate (server.lookup "name") ++ " (Latest)")
               (wrapServerResponse (objFields server) true t2)]) :=
  ⟨rfl, rfl, rfl, rfl, fun _ _ => rfl, fun _ _ _ => rfl⟩

/-- Claim C1 (counterexample): the validator that is actually invoked
during validation (`generate-registry-endpoints.js`) rejects the dotted id
`com.example.server`, which the claimed grammar `^[A-Za-z0-9.\-]+$`
accepts (and the dot-accepting validator of `part_000` does accept it, but
that function is never called). -/
theorem c1_counterexample :
    Gen.isValidServerId "com.example.server" = false
    ∧ Wrapped.isValidServerId "com.example.server" = true
    ∧ Gen.isValidServerId "my/server" = false
    ∧ Gen.isValidServerId "server id" = false :=
  ⟨by decide, by decide, by decide, by decide⟩

/-- Claim C1 (amended): the `part_000` validator accepts exactly the ids
matching `^[A-Za-z0-9.\-]+$`; the validator of
`generate-registry-endpoints.js` — the only one invoked — accepts exactly
the dot-free grammar `^[A-Za-z0-9\-]+$`, so ids outside the dotted grammar
(`my/server`, `server id`) are rejected as claimed, but dotted ids such as
`com.example.server` are rejected as well. -/
theorem c1_id_grammar_amended :
    (∀ s : String, Wrapped.isValidServerId s = true ↔ matchesIdGrammarDot s)
    ∧ (∀ s : String, Gen.isValidServerId s = true ↔ matchesIdGrammarNoDot s) := by
  constructor
  · intro s
    simp only [Wrapped.isValidServerId, matchesIdGrammarDot, Bool.and_eq_true,
      decide_eq_true_eq, List.all_eq_true, Bool.or_eq_true, beq_iff_eq,
      String.length, List.length_pos, ne_eq]
    constructor
    · rintro ⟨h1, h2⟩
      refine ⟨h1, fun c hc => ?_⟩
      have := h2 c hc
      tauto
    · rintro ⟨h1, h2⟩
      refine ⟨h1, fun c hc => ?_⟩
      have := h2 c hc
      tauto
  · intro s
    simp only [Gen.isValidServerId, matchesIdGrammarNoDot, Bool.and_eq_true,
      decide_eq_true_eq, List.all_eq_true, Bool.or_eq_true, beq_iff_eq,
      String.length, List.length_pos, ne_eq]
    constructor
    · rintro ⟨h1, h2⟩
      refine ⟨h1, fun c hc => ?_⟩
      have := h2 c hc
      tauto
    · rintro ⟨h1, h2⟩
      refine ⟨h1, fun c hc => ?_⟩
      have := h2 c hc
      tauto

theorem c1_witness :
    Gen.isValidServerId "figma-mcp" = true
    ∧ Wrapped.isValidServerId "com.example.server" = true :=
  ⟨(c1_id_grammar_amended.2 "figma-mcp").mpr
     (by unfold matchesIdGrammarNoDot; decide),
   (c1_id_grammar_amended.1 "com.example.server").mpr
     (by unfold matchesIdGrammarDot; decide)⟩

theorem Gen.validateServer_ok_iff (i j : Nat) (s : Json) :
    Gen.validateServer i s = .ok () ↔ Gen.validateServer j s = .ok () := by
  by_cases h1 : Gen.missingReq s = true
  · simp [Gen.validateServer, h1]
  · by_cases h2 :
      Gen.isValidServerId (jsToString ((s.lookup "id").getD .null)) = true
    · simp [Gen.validateServer, h1, h2]
    · simp [Gen.validateServer, h1, h2]

theorem Gen.validateServers_append_missing :
    ∀ (pre : List Json) (k : Nat) (s : Json) (post : List Json),
      (∀ e ∈ pre, Gen.validateServer 0 e = .ok ()) →
      Gen.missingReq s = true →
      Gen.validateServers k (pre ++ s :: post)
        = .error (.missingField (k + pre.length)) := by
  intro pre
  induction pre with
  | nil =>
    intro k s post _ hmiss
    simp [Gen.validateServers, Gen.validateServer, hmiss]
  | cons e pre ih =>
    intro k s post hok hmiss
    have he : Gen.validateServer k e = .ok () :=
      (Gen.validateServer_ok_iff 0 k e).mp (hok e (by simp))
    simp only [List.cons_append]
    rw [show Gen.validateServers k (e :: (pre ++ s :: post))
          = Gen.validateServers (k + 1) (pre ++ s :: post) from by
      simp [Gen.validateServers, he]]
    rw [ih (k + 1) s post (fun x hx => hok x (by simp [hx])) hmiss]
    have harith : k + 1 + pre.length = k + (e :: pre).length := by
      simp [List.length_cons]
      omega
    rw [harith]

theorem Gen.validateServers_no_missing :
    ∀ (xs : List Json) (k : Nat),
      (∀ e ∈ xs, Gen.missingReq e = false) →
      ∀ i, Gen.validateServers k xs ≠ .error (.missingField i) := by
  intro xs
  induction xs with
  | nil =>
    intro k _ i
    simp [Gen.validateServers]
  | cons e rest ih =>
    intro k hall i
    have he : Gen.missingReq e = false := hall e (by simp)
    by_cases h2 :
      Gen.isValidServerId (jsToString ((e.lookup "id").getD .null)) = true
    · have hok : Gen.validateServer k e = .ok () := by
        simp [Gen.validateServer, he, h2]
      rw [show Gen.validateServers k (e :: rest)
            = Gen.validateServers (k + 1) rest from by
        simp [Gen.validateServers, hok]]
      exact ih (k + 1) (fun x hx => hall x (by simp [hx])) i
    · have herr : Gen.validateServer k e
          = .error (.invalidId (jsToString ((e.lookup "id").getD .null))) := by
        simp [Gen.validateServer, he, h2]
      simp [Gen.validateServers, herr]

/-- Claim C7 (amended): the validator scans left to right and
short-circuits.  An entry with `id`, `name`, or `version` absent or empty
produces `MissingFieldError` naming that entry's index whenever every
earlier entry is fully valid, and the result does not depend on the
entries after it; if an earlier entry instead violates the id grammar, the
scan stops there with `InvalidIdError` and no `MissingFieldError` is
raised.  A registry whose entries all have the three required fields
truthy never produces a `MissingFieldError`. -/
theorem c7_required_field_scan :
    (∀ (pre : List Json) (s : Json) (post : List Json),
        (∀ e ∈ pre, Gen.validateServer 0 e = .ok ()) →
        Gen.missingReq s = true →
        Gen.validateServers 0 (pre ++ s :: post)
          = .error (.missingField pre.length))
    ∧ (∀ xs : List Json, (∀ e ∈ xs, Gen.missingReq e = false) →
        ∀ i, Gen.validateServers 0 xs ≠ .error (.missingField i)) := by
  constructor
  · intro pre s post hok hmiss
    have h := Gen.validateServers_append_missing pre 0 s post hok hmiss
    simpa using h
  · intro xs hall i
    exact Gen.validateServers_no_missing xs 0 hall i

/-- Claim C7 (counterexample): entry 0 has all required fields but an
invalid id, entry 1 is missing `name`; the scan fails at entry 0 with
`InvalidIdError`, so no `MissingFieldError` naming entry 1 is raised even
though an entry with a missing required field exists. -/
theorem c7_counterexample :
    Gen.validateServers 0 [srvBadId, srvMissing] = .error (.invalidId "a b") := by
  have hv : Gen.isValidServerId "a b" = false := by decide
  have hmr : Gen.missingReq srvBadId = false := by decide
  have hid : (srvBadId.lookup "id").getD .null = Json.str "a b" := rfl
  have herr : Gen.validateServer 0 srvBadId = .error (.invalidId "a b") := by
    simp [Gen.validateServer, hmr, hid, jsToString_str, hv]
  simp [Gen.validateServers, herr]

theorem c7_witness :
    Gen.validateServers 0 [srvA, srvMissing, srvBadId]
      = .error (.missingField 1)
    ∧ Gen.validateServers 0 [srvBadId] ≠ .error (.missingField 0) := by
  constructor
  · have h := c7_required_field_scan.1 [srvA] srvMissing [srvBadId] ?_ ?_
    · simpa using h
    · intro e he
      simp only [List.mem_singleton] at he
      subst he
      have hv : Gen.isValidServerId "alpha" = true := by decide
      have hmr : Gen.missingReq srvA = false := by decide
      have hid : (srvA.lookup "id").getD .null = Json.str "alpha" := rfl
      simp [Gen.validateServer, hmr, hid, jsToString_str, hv]
    · decide
  · exact c7_required_field_scan.2 [srvBadId]
      (by
        intro e he
        simp only [List.mem_singleton] at he
        subst he
        decide) 0

/-- Claim C2 (counterexample): `part_001` performs no schema check at all:
for a registry whose `servers` field is null it raises no error and still
writes the listing document, contradicting "no listing file is produced". -/
theorem c2_counterexample :
    JsonOnly.main badReg clkT
      = [⟨serversPath ++ ["index.json"], .json badReg⟩] := rfl

/-- Claim C2 (amended): for every registry whose `servers` field is absent,
null, or not a sequence, `generate-registry-endpoints.js` and `part_000`
fail with `SchemaError` before any document is written (their freshly
cleared output directory stays empty); `part_001`, which has no schema
check, writes exactly the listing document and no per-server or landing
document. -/
theorem c2_rejection_amended (reg : Json) (now : String) (clock : Nat → String)
    (h : isArrOpt (reg.lookup "servers") = false) :
    Gen.run reg now = .error .schemaErr
    ∧ Wrapped.run reg clock = .error .schemaErr
    ∧ JsonOnly.main reg clock
        = [⟨serversPath ++ ["index.json"], .json reg⟩] := by
  refine ⟨?_, ?_, ?_⟩
  · simp [Gen.run, Gen.checkRegistry, h]
  · simp [Wrapped.run, Wrapped.checkRegistry, h]
  · simp [JsonOnly.main, h]

theorem c2_witness :
    Gen.run badReg "T" = .error .schemaErr
    ∧ Wrapped.run badReg clkT = .error .schemaErr
    ∧ JsonOnly.main badReg clkT
        = [⟨serversPath ++ ["index.json"], .json badReg⟩] :=
  c2_rejection_amended badReg "T" clkT (by decide)

/-- Claim C8: for the empty registry `{ servers: [] }` the main script
succeeds, writing exactly the listing endpoint carrying the registry with
its empty sequence (JSON plus HTML mirror) and the landing page reporting
a server count of 0 — no per-server path and no detail document occurs in
the write list. -/
theorem c8_empty_registry (now : String) :
    Gen.run emptyReg now
      = .ok [⟨serversPath ++ ["index.json"], .json emptyReg⟩,
             ⟨serversPath ++ ["index.html"], .html "All MCP Servers" emptyReg⟩,
             ⟨[OUTPUT_DIR, "index.html"], .landing 0 [] (some now)⟩] := rfl

/-- Claim C3 (counterexample): in `part_000` the specific-version and
latest documents are produced by two separate `wrapServerResponse` calls,
each drawing its own `new Date().toISOString()`; with the two consecutive
draws one millisecond apart the two rendered documents differ (their
`_meta` timestamps disagree), refuting strict structural identity. -/
theorem c3_counterexample :
    ((Wrapped.generateServerDetailEndpoints regA clk2).map (fun w => w.content))[0]?
      ≠ ((Wrapped.generateServerDetailEndpoints regA clk2).map
          (fun w => w.content))[2]? := by
  have h0 : ((Wrapped.generateServerDetailEndpoints regA clk2).map
        (fun w => w.content))[0]?
      = some (.json (wrapServerResponse (objFields srvA) true
          "2026-01-01T00:00:00.000Z")) := rfl
  have h2 : ((Wrapped.generateServerDetailEndpoints regA clk2).map
        (fun w => w.content))[2]?
      = some (.json (wrapServerResponse (objFields srvA) true
          "2026-01-01T00:00:00.001Z")) := rfl
  rw [h0, h2]
  intro hEq
  have hc := Option.some.inj hEq
  have hd : wrapServerResponse (objFields srvA) true "2026-01-01T00:00:00.000Z"
      = wrapServerResponse (objFields srvA) true "2026-01-01T00:00:00.001Z" := by
    injection hc
  have hp := congrArg (fun d => metaFieldOf d "publishedAt") hd
  have e0 : metaFieldOf (wrapServerResponse (objFields srvA) true
        "2026-01-01T00:00:00.000Z") "publishedAt"
      = some (.str "2026-01-01T00:00:00.000Z") := rfl
  have e1 : metaFieldOf (wrapServerResponse (objFields srvA) true
        "2026-01-01T00:00:00.001Z") "publishedAt"
      = some (.str "2026-01-01T00:00:00.001Z") := rfl
  simp only [e0, e1] at hp
  have hs := Option.some.inj hp
  have hstr : "2026-01-01T00:00:00.000Z" = "2026-01-01T00:00:00.001Z" := by
    injection hs
  exact absurd hstr (by decide)

/-- Claim C3 (amended): the latest-alias document equals the
specific-version document in the main script (both are the raw server
object) and in `part_001` (one `wrapServerResponse` result is written to
both paths); in `part_000` the `server` sub-objects always agree and the
full documents agree whenever the two clock draws coincide — the `_meta`
timestamps may differ when the two `new Date()` calls straddle a
millisecond boundary. -/
theorem c3_latest_alias_amended :
    (∀ server : Json,
        ((Gen.serverWrites server).map (fun w => w.content))[2]?
          = some (.json server)
        ∧ ((Gen.serverWrites server).map (fun w => w.content))[4]?
          = some (.json server))
    ∧ (∀ (server : Json) (t : String),
        ((JsonOnly.serverWrites server t).map (fun w => w.content))[0]?
          = ((JsonOnly.serverWrites server t).map (fun w => w.content))[1]?)
    ∧ (∀ (server : Json) (t1 t2 : String), t1 = t2 →
        ((Wrapped.serverWrites server t1 t2).map (fun w => w.content))[0]?
          = ((Wrapped.serverWrites server t1 t2).map (fun w => w.content))[2]?)
    ∧ (∀ (fs : List (String × Json)) (b : Bool) (t1 t2 : String),
        (wrapServerResponse fs b t1).lookup "server"
          = (wrapServerResponse fs b t2).lookup "server") :=
  ⟨fun _ => ⟨rfl, rfl⟩, fun _ _ => rfl,
   fun _ t1 t2 ht => by subst ht; rfl, fun _ _ _ _ => rfl⟩

theorem c3_witness :
    ((Wrapped.serverWrites srvA "T" "T").map (fun w => w.content))[0]?
      = ((Wrapped.serverWrites srvA "T" "T").map (fun w => w.content))[2]? :=
  c3_latest_alias_amended.2.2.1 srvA "T" "T" rfl
